import Mathlib

/-!
Verification of the BOM converter (classification and aggregation engine).

Shallow embedding of converter_DEBUG_v4.py (class ExcelConverter:
classify_category, group_by_item) and of converter_v5_fixed.py
(classify_category), together with proofs and refutations of the spec's
claims about them.

Modelling conventions:
* Python floats are modelled as rationals.
* A numeric cell is NumCell: na (missing / NaN, pd.notna is false),
  num q (a value float(...) converts to q), or bad (a present value on
  which float(...) raises ValueError/TypeError).
* Text cells are Option String (none = NaN); str(x).upper() on a present
  cell maps each character with Char.toUpper, on a missing cell the code
  substitutes the empty string.
* Python exceptions are modelled with Except Unit; the try/except wrapping
  the whole classifier maps an error to category d, exactly as the code
  does.
* The regex class for a digit and the upper-casing are modelled over
  ASCII, which covers all of the code's markers (MS, JIS, ROLL, ...).
-/

/-- Python's str.upper, character by character. -/
def upperStr (s : String) : String := ⟨s.data.map Char.toUpper⟩

/-- Python's substring test, needle in hay. -/
def strContains (hay needle : String) : Bool :=
  (List.range (hay.data.length + 1)).any
    (fun i => needle.data.isPrefixOf (hay.data.drop i))

/-- The categories the classifier can produce.  Constructor unclassified is
the code's transient string of that name; exclusion (Python None) is
modelled as Option.none around Cat. -/
inductive Cat where
  | PD | De | Dm | Ds | d | unclassified
deriving DecidableEq

/-- One numeric spreadsheet cell as seen through pd.notna plus float. -/
inductive NumCell where
  | na
  | num (q : ℚ)
  | bad
deriving DecidableEq

/-- One input row, restricted to the columns the converter reads: ITEM,
SERIAL, column 3 (PARTS), column 5 (part name), column 6 (SIZE), column 7
(usage quantity), column 9 (material), column 13 (SUPPLY), column 14
(SUMMARY), column 22 (unit weight). -/
structure Row where
  item : Option Int
  serial : Option String
  parts : Option String
  partsName : Option String
  sizeText : Option String
  usage : NumCell
  material : Option String
  supply : Option String
  summary : Option String
  unitWeight : NumCell
deriving DecidableEq

/-- An all-empty row, used only as the default of List.headD on lists that
are provably nonempty. -/
def dummyRow : Row :=
  { item := none, serial := none, parts := none, partsName := none,
    sizeText := none, usage := .na, material := none, supply := none,
    summary := none, unitWeight := .na }

/-- Model of str(cell).upper() guarded by pd.notna, else the empty string
(lines 58, 61, 64, 67 of classify_category). -/
def upperOf : Option String → String
  | none => ""
  | some s => upperStr s

/-- Line 44: float of the usage cell when pd.notna, else 0.0.  There is no
inner try here, so a present non-numeric value raises. -/
def coerceUsage : NumCell → Except Unit ℚ
  | .na => .ok 0
  | .num q => .ok q
  | .bad => .error ()

/-- Lines 47 to 52: unit weight of the row being classified, with its own
try/except degrading a failed conversion to 0.0. -/
def coerceUnitSafe : NumCell → ℚ
  | .na => 0
  | .num q => q
  | .bad => 0

/-- Lines 115 and 148: float of the unit-weight cell when pd.notna, else
0.0; no inner try, so a present non-numeric value raises. -/
def coerceUnitUnsafe : NumCell → Except Unit ℚ
  | .na => .ok 0
  | .num q => .ok q
  | .bad => .error ()

/-- Line 70: the summary-marker test for MS-, MS and JIS. -/
def summaryMarker (s : String) : Bool :=
  strContains s ("MS-") || strContains s ("MS") || strContains s ("JIS")

/-- Line 74: the supply-code test for ES, SU, ST and CS. -/
def gateApplies (s : String) : Bool :=
  strContains s ("ES") || strContains s ("SU") || strContains s ("ST") ||
    strContains s ("CS")

/-- Line 78: the part-name test for ROLL and ROLLER. -/
def hasRollB (s : String) : Bool :=
  strContains s ("ROLL") || strContains s ("ROLLER")

/-- Line 85: the part-name test for BRG and BEARING. -/
def hasBrgB (s : String) : Bool :=
  strContains s ("BRG") || strContains s ("BEARING")

/-- Line 101: the common-steel test for SPCC, SPHC and SS. -/
def isCommonB (s : String) : Bool :=
  strContains s ("SPCC") || strContains s ("SPHC") || strContains s ("SS")

/-- Lines 112 to 121: the rule-5 scan over the rows of the whole table
whose SERIAL equals the classified row's serial.  For each row in order it
coerces that row's usage and unit weight (either may raise), then fires
when the row's material is not common steel and its own mass, usage times
unit weight, is at least 300. -/
def scanRule5 : List Row → Except Unit Bool
  | [] => .ok false
  | p :: ps =>
    match coerceUsage p.usage with
    | .error e => .error e
    | .ok pu =>
      match coerceUnitUnsafe p.unitWeight with
      | .error e => .error e
      | .ok pw =>
        if ¬ isCommonB (upperOf p.material) ∧ pu * pw ≥ 300 then .ok true
        else scanRule5 ps

/-- Lines 146 to 152: the thickness-heuristic scan; same rows, no material
condition. -/
def scanRule8 : List Row → Except Unit Bool
  | [] => .ok false
  | p :: ps =>
    match coerceUsage p.usage with
    | .error e => .error e
    | .ok pu =>
      match coerceUnitUnsafe p.unitWeight with
      | .error e => .error e
      | .ok pw =>
        if pu * pw ≥ 300 then .ok true
        else scanRule8 ps

/-- Maximal digit run at the head of the list: greedy match of one or more
digits. -/
def takeDigits (cs : List Char) : List Char := cs.takeWhile Char.isDigit

/-- The thickness regex of line 139, an optional T or PL prefix followed by
a captured nonempty digit run and an optional MM suffix, tried at one
fixed position.  Alternatives T, PL, empty are tried for the optional
prefix; the result is the captured digit group.  The optional MM suffix
never affects the captured digits. -/
def matchThickAt (cs : List Char) : Option (List Char) :=
  match cs with
  | [] => none
  | c :: rest =>
    if c = 'T' then
      if takeDigits rest ≠ [] then some (takeDigits rest) else none
    else if c = 'P' then
      match rest with
      | c2 :: rest2 =>
        if c2 = 'L' then
          if takeDigits rest2 ≠ [] then some (takeDigits rest2) else none
        else none
      | [] => none
    else
      if takeDigits (c :: rest) ≠ [] then some (takeDigits (c :: rest)) else none

/-- Line 139: re.search tries the pattern at each position from the left
and returns the captured digit group of the leftmost match. -/
def searchThickness : List Char → Option (List Char)
  | [] => none
  | c :: cs =>
    match matchThickAt (c :: cs) with
    | some d => some d
    | none => searchThickness cs

/-- Python's int applied to a nonempty decimal digit string (line 141). -/
def digitsToNat (ds : List Char) : Nat :=
  ds.foldl (fun n c => n * 10 + (c.toNat - 48)) 0

/-- Lines 135 to 154: the whole thickness block.  Its bare except clause
swallows a coercion failure raised inside the scan, so in that case the
rule simply does not fire. -/
def rule8 (sizeUp : String) (serialOpt : Option String) (allDf : List Row) : Bool :=
  match searchThickness sizeUp.data with
  | none => false
  | some ds =>
    if digitsToNat ds ≥ 80 then
      match serialOpt with
      | none => false
      | some sv =>
        match scanRule8 (allDf.filter (fun p => decide (p.serial = some sv))) with
        | .ok b => b
        | .error _ => false
    else false

/-- Lines 123 to 169: the decision procedure after the rule-5 block;
nothing here can raise. -/
def afterRule5 (totalWeight : ℚ) (material partsName sizeUp : String)
    (serialOpt : Option String) (allDf : List Row) : Option Cat :=
  if (strContains material ("SCM") ∨ strContains material ("SF")) ∧ totalWeight ≥ 300 then
    some Cat.Ds
  else if ¬ isCommonB material ∧ totalWeight ≥ 100 then some Cat.Dm
  else if rule8 sizeUp serialOpt allDf then some Cat.Ds
  else if totalWeight ≥ 500 then some Cat.Dm
  else if strContains partsName ("PIPE") ∨ strContains partsName ("PIPING") then
    some Cat.PD
  else if totalWeight < 50 then some Cat.PD
  else some Cat.unclassified

/-- Lines 96 to 169: the decision procedure from rule 3 onward, after the
summary and supply gates. -/
def afterGate (totalWeight : ℚ) (material partsName sizeUp : String)
    (serialOpt : Option String) (allDf : List Row) : Except Unit (Option Cat) :=
  if totalWeight ≥ 3000 then .ok (some Cat.Ds)
  else if ¬ isCommonB material then
    if totalWeight ≥ 400 then .ok (some Cat.Ds)
    else .ok (afterRule5 totalWeight material partsName sizeUp serialOpt allDf)
  else
    match serialOpt with
    | none => .ok (afterRule5 totalWeight material partsName sizeUp none allDf)
    | some sv =>
      match scanRule5 (allDf.filter (fun p => decide (p.serial = some sv))) with
      | .error e => .error e
      | .ok true => .ok (some Cat.Ds)
      | .ok false =>
        .ok (afterRule5 totalWeight material partsName sizeUp (some sv) allDf)

/-- The body of classify_category of converter_DEBUG_v4.py, without its
outer try/except (for which see classify_category below). -/
def classifyCore (row : Row) (allDf : List Row) : Except Unit (Option Cat) :=
  match coerceUsage row.usage with
  | .error e => .error e
  | .ok usage =>
    let totalWeight := usage * coerceUnitSafe row.unitWeight
    let material := upperOf row.material
    let supply := upperOf row.supply
    let summary := upperOf row.summary
    let partsName := upperOf row.partsName
    let sizeUp := upperOf row.sizeText
    if summaryMarker summary then .ok none
    else if gateApplies supply ∧ ¬ hasRollB partsName then .ok none
    else if gateApplies supply ∧ hasRollB partsName ∧ hasBrgB partsName then .ok none
    else afterGate totalWeight material partsName sizeUp row.serial allDf

/-- Lines 38 to 173 of converter_DEBUG_v4.py: the classifier, whose outer
except clause maps any raised error to category d.  The value none is the
code's None result, an excluded group. -/
def classify_category (row : Row) (allDf : List Row) : Option Cat :=
  match classifyCore row allDf with
  | .ok r => r
  | .error _ => some Cat.d

/-- A part-group as built by group_by_item (lines 496 to 514): one entry
per distinct PARTS value within one SERIAL of one ITEM, carrying the
group's combined mass, its rows, and the first row as representative. -/
structure PartGroup where
  partsNum : String
  weight : ℚ
  rows : List Row
  repRow : Row
deriving DecidableEq

/-- First-occurrence deduplication with an accumulator of already seen
values. -/
def firstUniquesAux {α : Type} [DecidableEq α] (seen : List α) : List α → List α
  | [] => []
  | x :: xs =>
    if x ∈ seen then firstUniquesAux seen xs
    else x :: firstUniquesAux (x :: seen) xs

/-- First-occurrence deduplication, the order pandas unique returns. -/
def firstUniques {α : Type} [DecidableEq α] (l : List α) : List α :=
  firstUniquesAux [] l

/-- Lines 504 to 505: one row's mass contribution, usage times unit
weight; either coercion may raise. -/
def rowMassE (r : Row) : Except Unit ℚ :=
  match coerceUsage r.usage with
  | .error e => .error e
  | .ok u =>
    match coerceUnitUnsafe r.unitWeight with
    | .error e => .error e
    | .ok w => .ok (u * w)

/-- A numeric cell read with every failure degraded to 0. -/
def coerceQ0 : NumCell → ℚ
  | .na => 0
  | .num q => q
  | .bad => 0

/-- The same row mass with failed coercions read as 0; it agrees with
rowMassE whenever the latter succeeds. -/
def rowMassQ (r : Row) : ℚ :=
  coerceQ0 r.usage * coerceQ0 r.unitWeight

/-- Lines 502 to 506: the sequential accumulation of a group's total mass;
the first failing coercion aborts the whole item. -/
def sumMassE : List Row → Except Unit ℚ
  | [] => .ok 0
  | r :: rs =>
    match rowMassE r with
    | .error e => .error e
    | .ok m =>
      match sumMassE rs with
      | .error e => .error e
      | .ok s => .ok (m + s)

/-- Lines 497 to 514: build one PartGroup per PARTS key of one serial, in
first-occurrence order of the PARTS values. -/
def buildPartsList (serialRows : List Row) : List String → Except Unit (List PartGroup)
  | [] => .ok []
  | p :: ps =>
    let prows := serialRows.filter (fun r => decide (r.parts = some p))
    match sumMassE prows with
    | .error e => .error e
    | .ok w =>
      match buildPartsList serialRows ps with
      | .error e => .error e
      | .ok rest =>
        .ok ({ partsNum := p, weight := w, rows := prows,
               repRow := prows.headD dummyRow } :: rest)

/-- Lines 490 to 516: group an item's rows by SERIAL, then by PARTS,
flattened in encounter order (dict insertion order). -/
def buildSerials (itemRows : List Row) : List String → Except Unit (List PartGroup)
  | [] => .ok []
  | s :: ss =>
    let srows := itemRows.filter (fun r => decide (r.serial = some s))
    match buildPartsList srows (firstUniques (srows.filterMap (fun r => r.parts))) with
    | .error e => .error e
    | .ok gs =>
      match buildSerials itemRows ss with
      | .error e => .error e
      | .ok rest => .ok (gs ++ rest)

/-- All part-groups of one item, in the order group_by_item visits them. -/
def buildItemGroups (itemRows : List Row) : Except Unit (List PartGroup) :=
  buildSerials itemRows (firstUniques (itemRows.filterMap (fun r => r.serial)))

/-- Lines 535 to 546: the representative row handed to the classifier,
with usage forced to 1 and unit weight to the group's combined mass
whenever that mass is positive. -/
def repMod (pg : PartGroup) : Row :=
  if pg.weight > 0 then
    { pg.repRow with usage := .num 1, unitWeight := .num pg.weight }
  else pg.repRow

/-- Line 549: classification of one part-group against the whole input
table. -/
def classifyGroup (pg : PartGroup) (allDf : List Row) : Option Cat :=
  classify_category (repMod pg) allDf

/-- Lines 530 to 571: classify every part-group of the item in order,
dropping the excluded ones and keeping each survivor's category. -/
def classifyAll (allDf : List Row) (gs : List PartGroup) : List (Cat × PartGroup) :=
  gs.filterMap (fun pg => (classifyGroup pg allDf).map (fun c => (c, pg)))

/-- Per-category group count of the classified list. -/
def catCount (c : Cat) (l : List (Cat × PartGroup)) : Nat :=
  (l.filter (fun x => decide (x.1 = c))).length

/-- Per-category mass total of the classified list. -/
def catWeight (c : Cat) (l : List (Cat × PartGroup)) : ℚ :=
  ((l.filter (fun x => decide (x.1 = c))).map (fun x => x.2.weight)).sum

/-- Line 613: the unclassified part-groups, in encounter order. -/
def unclOf (l : List (Cat × PartGroup)) : List PartGroup :=
  (l.filter (fun x => decide (x.1 = Cat.unclassified))).map (fun x => x.2)

/-- The ordering of line 616: descending by weight.  Python's stable sort
with reverse true is a stable descending sort, embedded as Mathlib's
stable insertion sort under this relation. -/
def weightGE (a b : PartGroup) : Prop := b.weight ≤ a.weight

instance : DecidableRel weightGE :=
  fun a b => inferInstanceAs (Decidable (b.weight ≤ a.weight))

instance : IsTotal PartGroup weightGE := ⟨fun a b => le_total b.weight a.weight⟩

instance : IsTrans PartGroup weightGE := ⟨fun _ _ _ h1 h2 => le_trans h2 h1⟩

/-- Line 616: sort the unclassified groups descending by weight, ties kept
in encounter order. -/
def sortDesc (l : List PartGroup) : List PartGroup :=
  List.insertionSort weightGE l

/-- Lines 618 to 631: split the sorted unclassified groups at half the
count rounded down; the first part is reassigned to Dm, the second to
De. -/
def allocate (l : List PartGroup) : List PartGroup × List PartGroup :=
  ((sortDesc l).take (l.length / 2), (sortDesc l).drop (l.length / 2))

/-- Lines 633 to 641: the item display name, the trimmed first-row part
name truncated to 50 characters, else a synthesized fallback. -/
def itemNameOf (n : Int) (firstRow : Row) : String :=
  match firstRow.partsName with
  | some s => if s.trim ≠ "" then (s.trim).take 50 else "Item " ++ toString n
  | none => "Item " ++ toString n

/-- One output record of group_by_item (lines 644 to 659). -/
structure ItemData where
  itemNum : Int
  itemName : String
  dCount : Nat
  dsCount : Nat
  dmCount : Nat
  deCount : Nat
  pdCount : Nat
  dWeight : ℚ
  dsWeight : ℚ
  dmWeight : ℚ
  deWeight : ℚ
  pdWeight : ℚ
deriving DecidableEq

/-- Lines 519 to 659: classify the item's part-groups, fold the
unclassified remainder into Dm and De, and accumulate per-category counts
and masses. -/
def mkItemData (allDf : List Row) (n : Int) (itemRows : List Row)
    (gs : List PartGroup) : ItemData :=
  let cl := classifyAll allDf gs
  let u := unclOf cl
  { itemNum := n
    itemName := itemNameOf n (itemRows.headD dummyRow)
    dCount := catCount Cat.d cl
    dsCount := catCount Cat.Ds cl
    dmCount := catCount Cat.Dm cl + (allocate u).1.length
    deCount := catCount Cat.De cl + (allocate u).2.length
    pdCount := catCount Cat.PD cl
    dWeight := catWeight Cat.d cl
    dsWeight := catWeight Cat.Ds cl
    dmWeight := catWeight Cat.Dm cl + ((allocate u).1.map (fun pg => pg.weight)).sum
    deWeight := catWeight Cat.De cl + ((allocate u).2.map (fun pg => pg.weight)).sum
    pdWeight := catWeight Cat.PD cl }

/-- Lines 481 to 667: processing of one item; a coercion failure while
building the item's part-groups skips the item. -/
def processItem (allDf : List Row) (n : Int) : Except Unit ItemData :=
  let itemRows := allDf.filter (fun r => decide (r.item = some n))
  match buildItemGroups itemRows with
  | .error e => .error e
  | .ok gs => .ok (mkItemData allDf n itemRows gs)

/-- Lines 477 to 669: group_by_item over the distinct ITEM values in
first-occurrence order, skipping items whose processing raised. -/
def group_by_item (allDf : List Row) : List ItemData :=
  (firstUniques (allDf.filterMap (fun r => r.item))).filterMap
    (fun n =>
      match processItem allDf n with
      | .ok d => some d
      | .error _ => none)

namespace V5

/-- Lines 36 to 41 of converter_v5_fixed.py: the regex match of exactly two
leading digits of str(serial), as a number. -/
def serialHead2 (s : String) : Option Nat :=
  match s.data with
  | c1 :: c2 :: _ =>
    if c1.isDigit ∧ c2.isDigit then
      some ((c1.toNat - 48) * 10 + (c2.toNat - 48))
    else none
  | _ => none

/-- Lines 21 to 55 of converter_v5_fixed.py: classify_category, a pure
function of the SERIAL value alone. -/
def classify_category (serial : Option String) : Cat :=
  match serial with
  | none => Cat.d
  | some s =>
    match serialHead2 s with
    | none => Cat.d
    | some p =>
      if p ∈ ([10, 20, 30, 50, 60, 70, 80, 90] : List Nat) then Cat.PD
      else if p = 11 then Cat.De
      else if p ∈ ([12, 14, 15, 16, 18] : List Nat) then Cat.Dm
      else if p ∈ ([23, 33, 34, 55, 56, 61, 75, 86, 87, 91] : List Nat) then Cat.Ds
      else Cat.d

/-- The two-digit key a serial is judged by: none for a missing serial or
one not starting with two digits. -/
def serialKey : Option String → Option Nat
  | none => none
  | some s => serialHead2 s

end V5

/-- Modelled from the claim C9's words: the fixed table from a two-digit
serial key to a category. -/
def claimPrefixTable (p : Nat) : Cat :=
  if p ∈ ([10, 20, 30, 50, 60, 70, 80, 90] : List Nat) then Cat.PD
  else if p = 11 then Cat.De
  else if p ∈ ([12, 14, 15, 16, 18] : List Nat) then Cat.Dm
  else if p ∈ ([23, 33, 34, 55, 56, 61, 75, 86, 87, 91] : List Nat) then Cat.Ds
  else Cat.d

/-- Modelled from the claim C10's words: the first maximal digit run of a
string, found by scanning to the first digit and taking the maximal run
from there. -/
def firstDigitRun : List Char → Option (List Char)
  | [] => none
  | c :: rest => if c.isDigit then some (takeDigits (c :: rest)) else firstDigitRun rest

/-- Modelled from the spec's words for claim C1: the sibling part-groups
of a serial are the PartGroups sharing both item and serial, and the
heavy-sibling test compares each sibling part-group's combined mass
against 300, firing when some sibling is non-common-steel (judged on its
representative row) with mass at least 300. -/
def claimSiblingHeavy (allDf : List Row) (n : Int) (sv : String) : Bool :=
  let itemRows := allDf.filter (fun r => decide (r.item = some n))
  let srows := itemRows.filter (fun r => decide (r.serial = some sv))
  match buildPartsList srows (firstUniques (srows.filterMap (fun r => r.parts))) with
  | .error _ => false
  | .ok gs =>
    gs.any (fun pg =>
      !(isCommonB (upperOf pg.repRow.material)) && decide (pg.weight ≥ 300))

/-- A bare part-group used in concrete allocator inputs. -/
def wpg (nm : String) (w : ℚ) : PartGroup :=
  { partsNum := nm, weight := w, rows := [], repRow := dummyRow }

/-- The five unresolved groups of the spec's scenario D, masses 80, 60,
40, 20, 10. -/
def scenD : List PartGroup :=
  [wpg ("A") 80, wpg ("B") 60, wpg ("C") 40, wpg ("D") 20, wpg ("E") 10]

/-- A row whose usage cell holds a present non-numeric value. -/
def badUsageRow : Row := { dummyRow with usage := NumCell.bad, unitWeight := NumCell.num 10 }

/-- The same row with the usage cell missing instead, which the code
degrades to 0. -/
def degradedUsageRow : Row := { dummyRow with usage := NumCell.na, unitWeight := NumCell.num 10 }

/-- A sibling row of serial S whose usage cell is non-numeric. -/
def badSiblingRow : Row := { dummyRow with serial := some ("S"), usage := NumCell.bad }

/-- A light common-steel group row in item 1, serial S. -/
def c1g : Row :=
  { dummyRow with item := some 1, serial := some ("S"), parts := some ("P"),
                  material := some ("SPCC"), usage := NumCell.num 1,
                  unitWeight := NumCell.num 60 }

/-- A heavy non-common-steel row of the same serial S but of item 2. -/
def c1other : Row :=
  { dummyRow with item := some 2, serial := some ("S"), parts := some ("Q"),
                  material := some ("SUS304"), usage := NumCell.num 1,
                  unitWeight := NumCell.num 300 }

/-- A table where the only heavy serial-S row belongs to another item. -/
def c1T : List Row := [c1g, c1other]

/-- A non-common-steel row of mass 200 in item 1, serial S, parts Q. -/
def c1sib : Row :=
  { dummyRow with item := some 1, serial := some ("S"), parts := some ("Q"),
                  material := some ("SUS304"), usage := NumCell.num 1,
                  unitWeight := NumCell.num 200 }

/-- A table whose serial-S sibling part-group Q has combined mass 400 but
no single row of mass 300. -/
def c1T2 : List Row := [c1g, c1sib, c1sib]

/-- The one-row table of a JIS-marked group of mass 3500. -/
def w4row : Row :=
  { dummyRow with item := some 1, serial := some ("S"), parts := some ("P"),
                  usage := NumCell.num 1, unitWeight := NumCell.num 3500,
                  summary := some ("JIS-100") }

/-- Table holding only w4row. -/
def w4T : List Row := [w4row]

/-- The part-group the builder produces from w4T. -/
def w4pg : PartGroup :=
  { partsNum := "P", weight := (1 : ℚ) * 3500 + 0, rows := [w4row], repRow := w4row }

/-- A supply-gated row without ROLL in the part name. -/
def w6Arow : Row :=
  { dummyRow with item := some 1, serial := some ("S"), parts := some ("P"),
                  usage := NumCell.num 1, unitWeight := NumCell.num 100,
                  supply := some ("ES"), partsName := some ("BRACKET") }

/-- Table holding only w6Arow. -/
def w6AT : List Row := [w6Arow]

/-- The part-group the builder produces from w6AT. -/
def w6Apg : PartGroup :=
  { partsNum := "P", weight := (1 : ℚ) * 100 + 0, rows := [w6Arow], repRow := w6Arow }

/-- A supply-gated roller row without a bearing marker, the spec's
scenario C. -/
def w6Brow : Row :=
  { dummyRow with item := some 1, serial := some ("S"), parts := some ("P"),
                  usage := NumCell.num 1, unitWeight := NumCell.num 150,
                  supply := some ("ES"), partsName := some ("ROLLER ASSY"),
                  material := some ("SPCC") }

/-- Table holding only w6Brow. -/
def w6BT : List Row := [w6Brow]

/-- The part-group the builder produces from w6BT. -/
def w6Bpg : PartGroup :=
  { partsNum := "P", weight := (1 : ℚ) * 150 + 0, rows := [w6Brow], repRow := w6Brow }

/-- Row one of the two-row key for the C8 witness, mass 10. -/
def w8a : Row :=
  { dummyRow with item := some 1, serial := some ("S"), parts := some ("P"),
                  usage := NumCell.num 1, unitWeight := NumCell.num 10 }

/-- Row two of the same key, mass 20. -/
def w8b : Row :=
  { dummyRow with item := some 1, serial := some ("S"), parts := some ("P"),
                  usage := NumCell.num 1, unitWeight := NumCell.num 20 }

/-- Table holding the two rows of one key. -/
def w8T : List Row := [w8a, w8b]

/-- The single part-group the builder produces from w8T. -/
def w8pg : PartGroup :=
  { partsNum := "P", weight := (1 : ℚ) * 10 + ((1 : ℚ) * 20 + 0),
    rows := [w8a, w8b], repRow := w8a }

/-- First witness row for C2: a light part, ending in PD. -/
def w2a : Row :=
  { dummyRow with item := some 1, serial := some ("A"), parts := some ("P1"),
                  usage := NumCell.num 1, unitWeight := NumCell.num 10 }

/-- Second witness row for C2: a heavy part, ending in Ds. -/
def w2b : Row :=
  { dummyRow with item := some 1, serial := some ("B"), parts := some ("P2"),
                  usage := NumCell.num 1, unitWeight := NumCell.num 3500 }

/-- Table of one item with two part-groups. -/
def w2T : List Row := [w2a, w2b]

/-- The two part-groups the builder produces from w2T. -/
def w2gs : List PartGroup :=
  [{ partsNum := "P1", weight := (1 : ℚ) * 10 + 0, rows := [w2a], repRow := w2a },
   { partsNum := "P2", weight := (1 : ℚ) * 3500 + 0, rows := [w2b], repRow := w2b }]

/-- The item record processItem produces from w2T. -/
def w2d : ItemData :=
  mkItemData w2T 1 (w2T.filter (fun r => decide (r.item = some 1))) w2gs

/-- A light common-steel group row of item 1, serial T2, whose size text
has no thickness marker. -/
def c1r8row : Row :=
  { dummyRow with item := some 1, serial := some ("T2"), parts := some ("P"),
                  material := some ("SPCC"), sizeText := some ("100X50"),
                  usage := NumCell.num 1, unitWeight := NumCell.num 60 }

/-- A heavy common-steel row of the same serial T2 but of item 2; common
steel, so the rule-5 scan ignores it, while the rule-8 scan does not. -/
def c1r8sib : Row :=
  { dummyRow with item := some 2, serial := some ("T2"), parts := some ("Q"),
                  material := some ("SPCC"), usage := NumCell.num 1,
                  unitWeight := NumCell.num 400 }

/-- A table where the only row of mass at least 300 on serial T2 belongs
to another item. -/
def c1r8T : List Row := [c1r8row, c1r8sib]

/-- Two serial-S rows of mass 200 each: an aggregate of 400 with no
single row reaching 300. -/
def c1r8T2 : List Row := [c1sib, c1sib]

/-- A non-common-steel row of serial S whose size text parses thickness
100, classified against a table holding a non-numeric sibling. -/
def w5c : Row :=
  { dummyRow with serial := some ("S"), material := some ("SUS304"),
                  sizeText := some ("T100"), usage := NumCell.num 1,
                  unitWeight := NumCell.num 60 }

/-- Helper: the classification a serial key produces, shared shape of the
v5 classifier and the claim's table. -/
theorem v5_classify_of_key :
    ∀ (s : Option String) (p : Nat), V5.serialKey s = some p →
      V5.classify_category s = claimPrefixTable p := by
  intro s p h
  cases s with
  | none => simp [V5.serialKey] at h
  | some str =>
    simp only [V5.serialKey] at h
    simp only [V5.classify_category, h, claimPrefixTable]

/-- Helper: a missing key classifies as d in the v5 classifier. -/
theorem v5_classify_of_no_key :
    ∀ s : Option String, V5.serialKey s = none → V5.classify_category s = Cat.d := by
  intro s h
  cases s with
  | none => rfl
  | some str =>
    simp only [V5.serialKey] at h
    simp only [V5.classify_category, h]

/-- C9: in converter_v5_fixed.py, classify_category assigns a category
solely from the first two digits of the serial via the fixed table
(10, 20, 30, 50, 60, 70, 80, 90 to PD; 11 to De; 12, 14, 15, 16, 18 to
Dm; 23, 33, 34, 55, 56, 61, 75, 86, 87, 91 to Ds; anything else,
including a missing serial or one not starting with two digits, to d);
any two inputs agreeing on that key receive the same category, and the
function consults no other data at all. -/
theorem claim9_v5_prefix_table :
    (∀ s1 s2 : Option String, V5.serialKey s1 = V5.serialKey s2 →
      V5.classify_category s1 = V5.classify_category s2)
    ∧ (∀ s : Option String, V5.serialKey s = none → V5.classify_category s = Cat.d)
    ∧ (∀ (s : Option String) (p : Nat), V5.serialKey s = some p →
      V5.classify_category s = claimPrefixTable p) := by
  refine ⟨?_, v5_classify_of_no_key, v5_classify_of_key⟩
  intro s1 s2 h
  cases hk : V5.serialKey s1 with
  | none =>
    rw [v5_classify_of_no_key s1 hk, v5_classify_of_no_key s2 (by rw [← h, hk])]
  | some p =>
    rw [v5_classify_of_key s1 p hk, v5_classify_of_key s2 p (by rw [← h, hk])]

/-- Witness for C9 at concrete serials: two serials with key 10 classify
alike as PD, a digitless serial classifies as d, and key 23 maps through
the table to Ds. -/
theorem claim9_witness :
    V5.classify_category (some "10A01") = V5.classify_category (some "10Z99")
    ∧ V5.classify_category (some "XY01") = Cat.d
    ∧ V5.classify_category (some "23B05") = claimPrefixTable 23 :=
  ⟨claim9_v5_prefix_table.1 (some "10A01") (some "10Z99") (by decide),
   claim9_v5_prefix_table.2.1 (some "XY01") (by decide),
   claim9_v5_prefix_table.2.2 (some "23B05") 23 (by decide)⟩

/-- Helper: a digit-headed list yields its head run both in firstDigitRun
and in the anchored regex match. -/
theorem firstDigitRun_of_head_digit {cs : List Char} (h : takeDigits cs ≠ []) :
    firstDigitRun cs = some (takeDigits cs) := by
  cases cs with
  | nil => simp [takeDigits] at h
  | cons c rest =>
    by_cases hc : c.isDigit
    · simp [firstDigitRun, hc]
    · simp [takeDigits, List.takeWhile_cons, hc] at h

/-- Helper: the anchored regex match at a digit position captures the
maximal digit run there. -/
theorem matchThickAt_digit {c : Char} {cs : List Char} (h : c.isDigit = true) :
    matchThickAt (c :: cs) = some (takeDigits (c :: cs)) := by
  have hT : c ≠ 'T' := by rintro rfl; simp at h
  have hP : c ≠ 'P' := by rintro rfl; simp at h
  have hne : takeDigits (c :: cs) ≠ [] := by
    simp [takeDigits, List.takeWhile_cons, h]
  simp [matchThickAt, hT, hP, hne]

/-- Helper: re.search of the thickness pattern returns exactly the first
maximal digit run of the string. -/
theorem searchThickness_eq_firstDigitRun :
    ∀ cs : List Char, searchThickness cs = firstDigitRun cs := by
  intro cs
  induction cs with
  | nil => rfl
  | cons c cs ih =>
    by_cases hd : c.isDigit
    · rw [searchThickness, matchThickAt_digit hd, firstDigitRun, if_pos hd]
    · have hfd : firstDigitRun (c :: cs) = firstDigitRun cs := by
        rw [firstDigitRun, if_neg hd]
      rw [searchThickness, hfd]
      by_cases hT : c = 'T'
      · subst hT
        by_cases hne : takeDigits cs ≠ []
        · have hm : matchThickAt ('T' :: cs) = some (takeDigits cs) := by
            simp [matchThickAt, hne]
          rw [hm, firstDigitRun_of_head_digit hne]
        · push_neg at hne
          have hm : matchThickAt ('T' :: cs) = none := by
            simp [matchThickAt, hne]
          rw [hm, ih]
      · by_cases hPc : c = 'P'
        · subst hPc
          cases cs with
          | nil => simp [matchThickAt, firstDigitRun, searchThickness]
          | cons c2 rest2 =>
            by_cases hL : c2 = 'L'
            · subst hL
              by_cases hne : takeDigits rest2 ≠ []
              · have hm : matchThickAt ('P' :: 'L' :: rest2) = some (takeDigits rest2) := by
                  simp [matchThickAt, hne]
                have h2 : ¬ ('L' : Char).isDigit = true := by decide
                rw [hm, firstDigitRun, if_neg h2, firstDigitRun_of_head_digit hne]
              · push_neg at hne
                have hm : matchThickAt ('P' :: 'L' :: rest2) = none := by
                  simp [matchThickAt, hne]
                rw [hm, ih]
            · have hm : matchThickAt ('P' :: c2 :: rest2) = none := by
                simp [matchThickAt, hL]
              rw [hm, ih]
        · have hne : takeDigits (c :: cs) = [] := by
            simp [takeDigits, List.takeWhile_cons, hd]
          have hm : matchThickAt (c :: cs) = none := by
            simp [matchThickAt, hT, hPc, hne]
          rw [hm, ih]

/-- Helper: firstDigitRun succeeds exactly on strings containing a digit. -/
theorem firstDigitRun_isSome :
    ∀ cs : List Char, (firstDigitRun cs).isSome = cs.any Char.isDigit := by
  intro cs
  induction cs with
  | nil => rfl
  | cons c cs ih =>
    by_cases hd : c.isDigit
    · simp [firstDigitRun, hd]
    · simp only [firstDigitRun, if_neg hd, List.any_cons, hd, Bool.false_or]
      exact ih

/-- C10: the thickness parse of converter_DEBUG_v4.py succeeds whenever
the size text contains any digit: re.search with the optional T or PL
prefix returns the first maximal digit run anywhere in the string, so a
size text with no thickness marker parses its first dimension as the
thickness, and when that value is at least 80 and the scan over the
same-serial rows finds a mass of at least 300, the group is classified
Ds. -/
theorem claim10_thickness_heuristic :
    (∀ cs : List Char, searchThickness cs = firstDigitRun cs)
    ∧ (∀ cs : List Char, cs.any Char.isDigit = true →
        (searchThickness cs).isSome = true)
    ∧ (∀ (row : Row) (allDf : List Row) (q : ℚ) (sv : String) (ds : List Char),
        coerceUsage row.usage = .ok q →
        summaryMarker (upperOf row.summary) = false →
        gateApplies (upperOf row.supply) = false →
        q * coerceUnitSafe row.unitWeight < 3000 →
        isCommonB (upperOf row.material) = true →
        row.serial = some sv →
        scanRule5 (allDf.filter (fun p => decide (p.serial = some sv))) = .ok false →
        strContains (upperOf row.material) ("SCM") = false →
        strContains (upperOf row.material) ("SF") = false →
        searchThickness (upperOf row.sizeText).data = some ds →
        digitsToNat ds ≥ 80 →
        scanRule8 (allDf.filter (fun p => decide (p.serial = some sv))) = .ok true →
        classify_category row allDf = some Cat.Ds) := by
  refine ⟨searchThickness_eq_firstDigitRun, ?_, ?_⟩
  · intro cs h
    rw [searchThickness_eq_firstDigitRun, firstDigitRun_isSome, h]
  · intro row allDf q sv ds husage hsum hgate hlt hcommon hserial hscan5 hscm hsf
      hsearch hth hscan8
    have hnot3000 : ¬ q * coerceUnitSafe row.unitWeight ≥ 3000 := not_le.mpr hlt
    have hr8 : rule8 (upperOf row.sizeText) (some sv) allDf = true := by
      rw [rule8.eq_def, hsearch]
      dsimp only
      rw [if_pos hth, hscan8]
    have har5 : afterRule5 (q * coerceUnitSafe row.unitWeight) (upperOf row.material)
        (upperOf row.partsName) (upperOf row.sizeText) (some sv) allDf = some Cat.Ds := by
      rw [afterRule5, if_neg (by simp [hscm, hsf]), if_neg (by simp [hcommon]),
        if_pos (by simp [hr8])]
    have hAG : afterGate (q * coerceUnitSafe row.unitWeight) (upperOf row.material)
        (upperOf row.partsName) (upperOf row.sizeText) row.serial allDf =
        .ok (some Cat.Ds) := by
      rw [afterGate.eq_def, if_neg hnot3000, if_neg (by simp [hcommon]), hserial]
      dsimp only
      rw [hscan5]
      dsimp only
      rw [har5]
    rw [classify_category, classifyCore, husage]
    simp only [hsum, Bool.false_eq_true, if_false, hgate, false_and, if_false]
    rw [hAG]

/-- Witness for C10: the size text 100X50 has no thickness marker but
parses its first dimension 100, and a common-steel group of mass 400 with
that size text is classified Ds through the thickness heuristic since its
own serial row carries mass at least 300. -/
theorem claim10_witness :
    searchThickness (upperStr ("100X50")).data = some ['1', '0', '0']
    ∧ digitsToNat ['1', '0', '0'] ≥ 80
    ∧ classify_category
        { dummyRow with item := some 1, serial := some ("S"), parts := some ("P"),
                        material := some ("SPCC"), sizeText := some ("100X50"),
                        usage := .num 1, unitWeight := .num 400 }
        [{ dummyRow with item := some 1, serial := some ("S"), parts := some ("P"),
                         material := some ("SPCC"), sizeText := some ("100X50"),
                         usage := .num 1, unitWeight := .num 400 }] = some Cat.Ds := by
  refine ⟨by decide, by decide, ?_⟩
  exact claim10_thickness_heuristic.2.2 _ _ 1 ("S") ['1', '0', '0'] rfl (by decide)
    (by decide) (by simp +decide [coerceUnitSafe]) (by decide) rfl
    (by simp +decide [scanRule5, coerceUsage, coerceUnitUnsafe, upperOf, dummyRow])
    (by decide) (by decide) (by decide) (by decide)
    (by simp +decide [scanRule8, coerceUsage, coerceUnitUnsafe, dummyRow])

/-- Helper: inserting into a list leaves the sublist of any fixed weight
unchanged except for the inserted element, which lands in front of it;
this is the stability of the insertion step. -/
theorem orderedInsert_filter_weight (x : PartGroup) (w : ℚ) :
    ∀ s : List PartGroup,
      (List.orderedInsert weightGE x s).filter (fun pg => decide (pg.weight = w)) =
      if x.weight = w then
        x :: s.filter (fun pg => decide (pg.weight = w))
      else s.filter (fun pg => decide (pg.weight = w)) := by
  intro s
  induction s with
  | nil => by_cases hx : x.weight = w <;> simp [List.orderedInsert, hx]
  | cons b t ih =>
    by_cases hr : weightGE x b
    · by_cases hx : x.weight = w <;>
        simp [List.orderedInsert, hr, List.filter_cons, hx]
    · have hbx : x.weight < b.weight := lt_of_not_le hr
      by_cases hx : x.weight = w
      · have hb : ¬ b.weight = w := by rw [← hx]; exact ne_of_gt hbx
        simp [List.orderedInsert, hr, List.filter_cons, hb, ih, hx]
      · by_cases hb : b.weight = w <;>
          simp [List.orderedInsert, hr, List.filter_cons, hb, ih, hx]

/-- Helper: the stable descending sort keeps the elements of any fixed
weight in their original relative order. -/
theorem sortDesc_filter_weight (w : ℚ) :
    ∀ l : List PartGroup,
      (sortDesc l).filter (fun pg => decide (pg.weight = w)) =
      l.filter (fun pg => decide (pg.weight = w)) := by
  intro l
  induction l with
  | nil => rfl
  | cons x t ih =>
    have hstep : sortDesc (x :: t) = List.orderedInsert weightGE x (sortDesc t) := rfl
    rw [hstep, orderedInsert_filter_weight]
    by_cases hx : x.weight = w
    · rw [if_pos hx, ih, List.filter_cons, if_pos (by simp [hx])]
    · rw [if_neg hx, ih, List.filter_cons, if_neg (by simp [hx])]

/-- Helper: sortDesc permutes its input. -/
theorem sortDesc_perm (l : List PartGroup) : (sortDesc l).Perm l :=
  List.perm_insertionSort weightGE l

/-- Helper: sortDesc preserves length. -/
theorem sortDesc_length (l : List PartGroup) : (sortDesc l).length = l.length :=
  (sortDesc_perm l).length_eq

/-- Helper: sortDesc sorts descending by weight. -/
theorem sortDesc_sorted (l : List PartGroup) : List.Sorted weightGE (sortDesc l) :=
  List.sorted_insertionSort weightGE l

/-- Helper: the two allocation halves concatenate to the sorted list. -/
theorem allocate_append (u : List PartGroup) :
    (allocate u).1 ++ (allocate u).2 = sortDesc u :=
  List.take_append_drop _ _

/-- Helper: the Dm half receives exactly half the count, rounded down. -/
theorem allocate_len1 (u : List PartGroup) :
    (allocate u).1.length = u.length / 2 := by
  simp only [allocate, List.length_take, sortDesc_length]
  omega

/-- Helper: the De half receives the remainder. -/
theorem allocate_len2 (u : List PartGroup) :
    (allocate u).2.length = u.length - u.length / 2 := by
  simp only [allocate, List.length_drop, sortDesc_length]

/-- C3: the unresolved-group allocator sorts the groups descending by
mass with ties kept in encounter order (the filter equation expresses
stability), gives the heaviest floor of half of them to Dm and the rest
to De, drops none and duplicates none (the permutation), and every mass
in the Dm half is at least every mass in the De half. -/
theorem claim3_unresolved_split :
    ∀ u : List PartGroup,
      (allocate u).1.length = u.length / 2
      ∧ (allocate u).2.length = u.length - u.length / 2
      ∧ ((allocate u).1 ++ (allocate u).2).Perm u
      ∧ (∀ w : ℚ,
          ((allocate u).1 ++ (allocate u).2).filter (fun pg => decide (pg.weight = w)) =
            u.filter (fun pg => decide (pg.weight = w)))
      ∧ ∀ a ∈ (allocate u).1, ∀ b ∈ (allocate u).2, b.weight ≤ a.weight := by
  intro u
  refine ⟨allocate_len1 u, allocate_len2 u, ?_, ?_, ?_⟩
  · rw [allocate_append]
    exact sortDesc_perm u
  · intro w
    rw [allocate_append]
    exact sortDesc_filter_weight w u
  · intro a ha b hb
    have hs : List.Pairwise weightGE (sortDesc u) := sortDesc_sorted u
    rw [← allocate_append u] at hs
    exact (List.pairwise_append.mp hs).2.2 a ha b hb

/-- Witness for C3 at scenario D: the heaviest two go to Dm, the other
three to De, nothing is dropped, and the Dm masses dominate the De
masses. -/
theorem claim3_witness :
    (allocate scenD).1.length = scenD.length / 2
    ∧ (allocate scenD).2.length = scenD.length - scenD.length / 2
    ∧ ((allocate scenD).1 ++ (allocate scenD).2).Perm scenD
    ∧ (wpg ("E") 10).weight ≤ (wpg ("A") 80).weight :=
  ⟨(claim3_unresolved_split scenD).1, (claim3_unresolved_split scenD).2.1,
   (claim3_unresolved_split scenD).2.2.1,
   (claim3_unresolved_split scenD).2.2.2.2 (wpg ("A") 80) (by decide)
     (wpg ("E") 10) (by decide)⟩

/-- Helper: the representative-row modification touches only the two
numeric cells; every other field is unchanged. -/
theorem repMod_fields (pg : PartGroup) :
    (repMod pg).summary = pg.repRow.summary
    ∧ (repMod pg).supply = pg.repRow.supply
    ∧ (repMod pg).partsName = pg.repRow.partsName
    ∧ (repMod pg).material = pg.repRow.material
    ∧ (repMod pg).sizeText = pg.repRow.sizeText
    ∧ (repMod pg).serial = pg.repRow.serial := by
  unfold repMod
  split <;> exact ⟨rfl, rfl, rfl, rfl, rfl, rfl⟩

/-- C7: a part-group of combined mass at least 3000 that passes the
summary and supply gates is classified Ds regardless of material, before
any material check is consulted. -/
theorem claim7_heavy_single_part :
    ∀ (allDf : List Row) (pg : PartGroup),
      pg.weight ≥ 3000 →
      summaryMarker (upperOf pg.repRow.summary) = false →
      (gateApplies (upperOf pg.repRow.supply) = true →
        hasRollB (upperOf pg.repRow.partsName) = true ∧
        hasBrgB (upperOf pg.repRow.partsName) = false) →
      classifyGroup pg allDf = some Cat.Ds := by
  intro allDf pg h3000 hsum hgate
  have hw : (0 : ℚ) < pg.weight := lt_of_lt_of_le (by norm_num) h3000
  have hrm : repMod pg =
      { pg.repRow with usage := NumCell.num 1, unitWeight := NumCell.num pg.weight } := by
    rw [repMod, if_pos hw]
  have hAG : afterGate ((1 : ℚ) * coerceUnitSafe (NumCell.num pg.weight))
      (upperOf pg.repRow.material) (upperOf pg.repRow.partsName)
      (upperOf pg.repRow.sizeText) pg.repRow.serial allDf = .ok (some Cat.Ds) := by
    rw [afterGate.eq_def, if_pos (by simpa [coerceUnitSafe, one_mul] using h3000)]
  have hcc : classifyCore (repMod pg) allDf = .ok (some Cat.Ds) := by
    rw [hrm, classifyCore]
    dsimp only [coerceUsage]
    by_cases hg : gateApplies (upperOf pg.repRow.supply) = true
    · obtain ⟨hroll, hbrg⟩ := hgate hg
      simp only [hsum, Bool.false_eq_true, if_false, hg, hroll, hbrg, true_and,
        not_true, and_false, false_and, if_false]
      exact hAG
    · simp only [hsum, Bool.false_eq_true, if_false, hg, false_and, if_false]
      exact hAG
  rw [classifyGroup, classify_category, hcc]

/-- Witness for C7: a single-row group of mass 3500 and a non-common
material is classified Ds. -/
theorem claim7_witness :
    (wpg ("P") 3500).weight ≥ 3000
    ∧ classifyGroup
        { wpg ("P") 3500 with
            repRow := { dummyRow with material := some ("SUS304") } } [] =
      some Cat.Ds :=
  ⟨by decide,
   claim7_heavy_single_part []
     { wpg ("P") 3500 with repRow := { dummyRow with material := some ("SUS304") } }
     (by decide) (by decide) (by decide)⟩

/-- Helper: the rule-8 scan reports a hit when all scanned rows coerce
and some scanned row's own mass is at least 300, its material being
irrelevant. -/
theorem scanRule8_fires :
    ∀ l : List Row,
      (∀ r ∈ l, r.usage ≠ NumCell.bad ∧ r.unitWeight ≠ NumCell.bad) →
      (∃ r ∈ l, rowMassQ r ≥ 300) →
      scanRule8 l = .ok true := by
  intro l
  induction l with
  | nil =>
    intro _ hex
    obtain ⟨r, hr, _⟩ := hex
    simp at hr
  | cons p ps ih =>
    intro hok hex
    obtain ⟨hpu, hpw⟩ := hok p (List.mem_cons_self p ps)
    have hcu : coerceUsage p.usage = .ok (coerceQ0 p.usage) := by
      cases hc : p.usage <;> simp_all [coerceUsage, coerceQ0]
    have hcw : coerceUnitUnsafe p.unitWeight = .ok (coerceQ0 p.unitWeight) := by
      cases hc : p.unitWeight <;> simp_all [coerceUnitUnsafe, coerceQ0]
    rw [scanRule8, hcu, hcw]
    dsimp only
    by_cases hfire : coerceQ0 p.usage * coerceQ0 p.unitWeight ≥ 300
    · rw [if_pos hfire]
    · rw [if_neg hfire]
      apply ih
      · intro r hr
        exact hok r (List.mem_cons_of_mem p hr)
      · obtain ⟨r, hr, hm⟩ := hex
        rcases List.mem_cons.mp hr with hrp | hrtl
        · exfalso
          subst hrp
          rw [rowMassQ] at hm
          exact hfire hm
        · exact ⟨r, hrtl, hm⟩

/-- Helper: the rule-8 scan reports no hit when all scanned rows coerce
and every scanned row's own mass is below 300, whatever their sum. -/
theorem scanRule8_no_hit :
    ∀ l : List Row,
      (∀ r ∈ l, r.usage ≠ NumCell.bad ∧ r.unitWeight ≠ NumCell.bad) →
      (∀ r ∈ l, rowMassQ r < 300) →
      scanRule8 l = .ok false := by
  intro l
  induction l with
  | nil => intro _ _; rfl
  | cons p ps ih =>
    intro hok hlt
    obtain ⟨hpu, hpw⟩ := hok p (List.mem_cons_self p ps)
    have hcu : coerceUsage p.usage = .ok (coerceQ0 p.usage) := by
      cases hc : p.usage <;> simp_all [coerceUsage, coerceQ0]
    have hcw : coerceUnitUnsafe p.unitWeight = .ok (coerceQ0 p.unitWeight) := by
      cases hc : p.unitWeight <;> simp_all [coerceUnitUnsafe, coerceQ0]
    rw [scanRule8, hcu, hcw]
    dsimp only
    have hplt : ¬ coerceQ0 p.usage * coerceQ0 p.unitWeight ≥ 300 := by
      have hp := hlt p (List.mem_cons_self p ps)
      rw [rowMassQ] at hp
      exact not_le.mpr hp
    rw [if_neg hplt]
    exact ih (fun r hr => hok r (List.mem_cons_of_mem p hr))
      (fun r hr => hlt r (List.mem_cons_of_mem p hr))

/-- Helper: a raise inside the rule-8 scan is swallowed, so the
thickness rule does not fire whatever the size text parsed. -/
theorem rule8_scan_error :
    ∀ (sizeUp : String) (sv : String) (allDf : List Row),
      scanRule8 (allDf.filter (fun p => decide (p.serial = some sv))) = .error () →
      rule8 sizeUp (some sv) allDf = false := by
  intro sizeUp sv allDf h
  cases hs : searchThickness sizeUp.data with
  | none => simp [rule8, hs]
  | some ds => simp [rule8, hs, h]

/-- Counterexample to C5: a non-numeric usage quantity raises at the very
first coercion of classify_category and the outer handler maps the group
to category d, while the degradation to 0 the claim describes would have
let the checks proceed to PD. -/
theorem claim5_cex :
    classify_category badUsageRow [] = some Cat.d
    ∧ classify_category degradedUsageRow [] = some Cat.PD := by
  constructor
  · rfl
  · simp +decide [classify_category, classifyCore, afterGate, afterRule5, rule8,
      scanRule5, searchThickness, upperOf, coerceUsage, coerceUnitSafe,
      degradedUsageRow, dummyRow]

/-- C5 amended: only the unit-weight coercion of the row being classified
degrades to 0 without raising; a non-numeric usage quantity of the row
raises and the group is mapped to d, and so does a coercion failure met
during the rule-5 sibling scan; a coercion failure inside the
thickness-heuristic scan, by contrast, is swallowed: the rule does not
fire and classification proceeds exactly as if the size text were
absent. -/
theorem claim5_coercion_amended :
    (∀ (row : Row) (allDf : List Row), row.usage = NumCell.bad →
        classify_category row allDf = some Cat.d)
    ∧ (∀ (row : Row) (allDf : List Row),
        classify_category { row with unitWeight := NumCell.bad } allDf =
          classify_category { row with unitWeight := NumCell.na } allDf)
    ∧ (∀ (row : Row) (allDf : List Row) (q : ℚ) (sv : String),
        coerceUsage row.usage = .ok q →
        summaryMarker (upperOf row.summary) = false →
        gateApplies (upperOf row.supply) = false →
        q * coerceUnitSafe row.unitWeight < 3000 →
        isCommonB (upperOf row.material) = true →
        row.serial = some sv →
        scanRule5 (allDf.filter (fun p => decide (p.serial = some sv))) = .error () →
        classify_category row allDf = some Cat.d)
    ∧ (∀ (sizeUp sv : String) (allDf : List Row),
        scanRule8 (allDf.filter (fun p => decide (p.serial = some sv))) = .error () →
        rule8 sizeUp (some sv) allDf = false)
    ∧ (∀ (row : Row) (allDf : List Row) (sv : String),
        row.serial = some sv →
        scanRule8 (allDf.filter (fun p => decide (p.serial = some sv))) = .error () →
        classify_category row allDf =
          classify_category { row with sizeText := none } allDf) := by
  refine ⟨?_, ?_, ?_, rule8_scan_error, ?_⟩
  · intro row allDf h
    simp [classify_category, classifyCore, h, coerceUsage]
  · intro row allDf
    simp only [classify_category, classifyCore, coerceUnitSafe]
  · intro row allDf q sv husage hsum hgate hlt hcommon hserial hscan5
    have hAG : afterGate (q * coerceUnitSafe row.unitWeight) (upperOf row.material)
        (upperOf row.partsName) (upperOf row.sizeText) row.serial allDf =
        .error () := by
      rw [afterGate.eq_def, if_neg (not_le.mpr hlt), if_neg (by simp [hcommon]), hserial]
      dsimp only
      rw [hscan5]
    rw [classify_category, classifyCore, husage]
    simp only [hsum, Bool.false_eq_true, if_false, hgate, false_and, if_false]
    rw [hAG]
  · intro row allDf sv hserial hscan8
    have hr8 : ∀ s : String, rule8 s (some sv) allDf = false :=
      fun s => rule8_scan_error s sv allDf hscan8
    have hag : ∀ (tw : ℚ) (mat pn : String),
        afterGate tw mat pn (upperOf row.sizeText) (some sv) allDf =
        afterGate tw mat pn (upperOf (none : Option String)) (some sv) allDf := by
      intro tw mat pn
      simp only [afterGate.eq_def, afterRule5, hr8]
    have hcc : classifyCore row allDf =
        classifyCore { row with sizeText := none } allDf := by
      simp only [classifyCore]
      rw [hserial]
      cases hu : coerceUsage row.usage with
      | error e => rfl
      | ok q2 =>
        dsimp only
        by_cases hA : summaryMarker (upperOf row.summary) = true
        · rw [if_pos hA, if_pos hA]
        · rw [if_neg hA, if_neg hA]
          by_cases hB : gateApplies (upperOf row.supply) = true ∧
              ¬ hasRollB (upperOf row.partsName) = true
          · rw [if_pos hB, if_pos hB]
          · rw [if_neg hB, if_neg hB]
            by_cases hC : gateApplies (upperOf row.supply) = true ∧
                hasRollB (upperOf row.partsName) = true ∧
                hasBrgB (upperOf row.partsName) = true
            · rw [if_pos hC, if_pos hC]
            · rw [if_neg hC, if_neg hC]
              exact hag _ _ _
    simp only [classify_category]
    rw [hcc]

/-- Witness for C5 amended: a well-formed common-steel row of serial S is
mapped to d because the rule-5 scan meets the non-numeric sibling, while
for a non-common-steel row the same non-numeric sibling only silences the
thickness rule and classification proceeds to unclassified. -/
theorem claim5_witness :
    badSiblingRow.usage = NumCell.bad
    ∧ classify_category
        { dummyRow with serial := some ("S"), material := some ("SPCC"),
                        usage := NumCell.num 1, unitWeight := NumCell.num 60 }
        [badSiblingRow] = some Cat.d
    ∧ rule8 (upperStr ("T100")) (some ("S")) [badSiblingRow] = false
    ∧ classify_category w5c [badSiblingRow] =
        classify_category { w5c with sizeText := none } [badSiblingRow]
    ∧ classify_category w5c [badSiblingRow] = some Cat.unclassified :=
  ⟨rfl,
   claim5_coercion_amended.2.2.1
     { dummyRow with serial := some ("S"), material := some ("SPCC"),
                     usage := NumCell.num 1, unitWeight := NumCell.num 60 }
     [badSiblingRow] 1 ("S") rfl (by decide) (by decide)
     (by simp +decide [coerceUnitSafe]) (by decide) rfl rfl,
   claim5_coercion_amended.2.2.2.1 (upperStr ("T100")) ("S") [badSiblingRow] rfl,
   claim5_coercion_amended.2.2.2.2 w5c [badSiblingRow] ("S") rfl rfl,
   by
    simp +decide [classify_category, classifyCore, afterGate, afterRule5, rule8,
      scanRule5, scanRule8, searchThickness, matchThickAt, takeDigits, digitsToNat,
      upperOf, upperStr, coerceUsage, coerceUnitSafe, coerceUnitUnsafe, w5c,
      badSiblingRow, dummyRow]⟩

/-- Counterexample to C1: the code classifies the common-steel group Ds
because of a heavy same-serial row of another item, although the claim's
same-item sibling part-groups contain no heavy one; and it leaves the
group unclassified when the same-item sibling part-group has combined
mass 400 spread over rows of 200, although the claim's group-mass test
fires there. -/
theorem claim1_cex :
    classify_category c1g c1T = some Cat.Ds
    ∧ claimSiblingHeavy c1T 1 ("S") = false
    ∧ classify_category c1g c1T2 = some Cat.unclassified
    ∧ claimSiblingHeavy c1T2 1 ("S") = true := by
  refine ⟨?_, ?_, ?_, ?_⟩
  · simp +decide [classify_category, classifyCore, afterGate, afterRule5, rule8,
      scanRule5, searchThickness, upperOf, coerceUsage, coerceUnitSafe,
      coerceUnitUnsafe, c1g, c1other, c1T, dummyRow]
  · simp +decide [claimSiblingHeavy, buildPartsList, sumMassE, rowMassE,
      coerceUsage, coerceUnitUnsafe, firstUniques, firstUniquesAux, upperOf,
      c1g, c1other, c1T, dummyRow]
  · simp +decide [classify_category, classifyCore, afterGate, afterRule5, rule8,
      scanRule5, searchThickness, upperOf, coerceUsage, coerceUnitSafe,
      coerceUnitUnsafe, c1g, c1sib, c1T2, dummyRow]
  · simp +decide [claimSiblingHeavy, buildPartsList, sumMassE, rowMassE,
      coerceUsage, coerceUnitUnsafe, firstUniques, firstUniquesAux, upperOf,
      c1g, c1sib, c1T2, dummyRow]
    norm_num

/-- Helper: the rule-5 scan reports a hit when all scanned rows coerce and
some scanned row is non-common-steel with row mass at least 300. -/
theorem scanRule5_fires :
    ∀ l : List Row,
      (∀ r ∈ l, r.usage ≠ NumCell.bad ∧ r.unitWeight ≠ NumCell.bad) →
      (∃ r ∈ l, isCommonB (upperOf r.material) = false ∧ rowMassQ r ≥ 300) →
      scanRule5 l = .ok true := by
  intro l
  induction l with
  | nil =>
    intro _ hex
    obtain ⟨r, hr, _⟩ := hex
    simp at hr
  | cons p ps ih =>
    intro hok hex
    obtain ⟨hpu, hpw⟩ := hok p (List.mem_cons_self p ps)
    have hcu : coerceUsage p.usage = .ok (coerceQ0 p.usage) := by
      cases hc : p.usage <;> simp_all [coerceUsage, coerceQ0]
    have hcw : coerceUnitUnsafe p.unitWeight = .ok (coerceQ0 p.unitWeight) := by
      cases hc : p.unitWeight <;> simp_all [coerceUnitUnsafe, coerceQ0]
    rw [scanRule5, hcu, hcw]
    dsimp only
    by_cases hfire :
        ¬ isCommonB (upperOf p.material) ∧ coerceQ0 p.usage * coerceQ0 p.unitWeight ≥ 300
    · rw [if_pos hfire]
    · rw [if_neg hfire]
      apply ih
      · intro r hr
        exact hok r (List.mem_cons_of_mem p hr)
      · obtain ⟨r, hr, hc, hm⟩ := hex
        rcases List.mem_cons.mp hr with hrp | hrtl
        · exfalso
          subst hrp
          exact hfire ⟨by simp [hc], hm⟩
        · exact ⟨r, hrtl, hc, hm⟩

/-- C1 amended: whenever the sibling heavy-part check (rule 5) or the
thickness heuristic's scan (rule 8) is reached, the scan consults the
individual rows of the whole input sharing the group's serial, the item
being ignored; each fires on a single row's own mass of at least 300
(rule 5 on non-common-steel rows, rule 8 on any row), and rule 8 stays
silent when every same-serial row is individually below 300, whatever
their aggregated part-group mass. -/
theorem claim1_sibling_scan_amended :
    (∀ (row : Row) (allDf : List Row) (sv : String) (q : ℚ),
      coerceUsage row.usage = .ok q →
      summaryMarker (upperOf row.summary) = false →
      gateApplies (upperOf row.supply) = false →
      q * coerceUnitSafe row.unitWeight < 3000 →
      isCommonB (upperOf row.material) = true →
      row.serial = some sv →
      (∀ r ∈ allDf, r.serial = some sv →
        r.usage ≠ NumCell.bad ∧ r.unitWeight ≠ NumCell.bad) →
      (∃ r ∈ allDf, r.serial = some sv ∧ isCommonB (upperOf r.material) = false ∧
        rowMassQ r ≥ 300) →
      classify_category row allDf = some Cat.Ds)
    ∧ (∀ (row : Row) (allDf : List Row) (sv : String) (q : ℚ) (ds : List Char),
      coerceUsage row.usage = .ok q →
      summaryMarker (upperOf row.summary) = false →
      gateApplies (upperOf row.supply) = false →
      q * coerceUnitSafe row.unitWeight < 3000 →
      isCommonB (upperOf row.material) = true →
      row.serial = some sv →
      scanRule5 (allDf.filter (fun p => decide (p.serial = some sv))) = .ok false →
      strContains (upperOf row.material) ("SCM") = false →
      strContains (upperOf row.material) ("SF") = false →
      searchThickness (upperOf row.sizeText).data = some ds →
      digitsToNat ds ≥ 80 →
      (∀ r ∈ allDf, r.serial = some sv →
        r.usage ≠ NumCell.bad ∧ r.unitWeight ≠ NumCell.bad) →
      (∃ r ∈ allDf, r.serial = some sv ∧ rowMassQ r ≥ 300) →
      classify_category row allDf = some Cat.Ds)
    ∧ (∀ (sizeUp sv : String) (allDf : List Row),
      (∀ r ∈ allDf, r.serial = some sv →
        r.usage ≠ NumCell.bad ∧ r.unitWeight ≠ NumCell.bad) →
      (∀ r ∈ allDf, r.serial = some sv → rowMassQ r < 300) →
      rule8 sizeUp (some sv) allDf = false) := by
  refine ⟨?_, ?_, ?_⟩
  · intro row allDf sv q husage hsum hgate hlt hcommon hserial hok hex
    have hscan : scanRule5 (allDf.filter (fun p => decide (p.serial = some sv))) =
        .ok true := by
      apply scanRule5_fires
      · intro r hr
        rw [List.mem_filter] at hr
        exact hok r hr.1 (by simpa using hr.2)
      · obtain ⟨r, hr, hs, hc, hm⟩ := hex
        exact ⟨r, List.mem_filter.mpr ⟨hr, by simp [hs]⟩, hc, hm⟩
    have hAG : afterGate (q * coerceUnitSafe row.unitWeight) (upperOf row.material)
        (upperOf row.partsName) (upperOf row.sizeText) row.serial allDf =
        .ok (some Cat.Ds) := by
      rw [afterGate.eq_def, if_neg (not_le.mpr hlt), if_neg (by simp [hcommon]), hserial]
      dsimp only
      rw [hscan]
    rw [classify_category, classifyCore, husage]
    simp only [hsum, Bool.false_eq_true, if_false, hgate, false_and, if_false]
    rw [hAG]
  · intro row allDf sv q ds husage hsum hgate hlt hcommon hserial hscan5 hscm hsf
      hsearch hth hok hex
    have hscan8 : scanRule8 (allDf.filter (fun p => decide (p.serial = some sv))) =
        .ok true := by
      apply scanRule8_fires
      · intro r hr
        rw [List.mem_filter] at hr
        exact hok r hr.1 (by simpa using hr.2)
      · obtain ⟨r, hr, hs, hm⟩ := hex
        exact ⟨r, List.mem_filter.mpr ⟨hr, by simp [hs]⟩, hm⟩
    have hr8 : rule8 (upperOf row.sizeText) (some sv) allDf = true := by
      rw [rule8.eq_def, hsearch]
      dsimp only
      rw [if_pos hth, hscan8]
    have har5 : afterRule5 (q * coerceUnitSafe row.unitWeight) (upperOf row.material)
        (upperOf row.partsName) (upperOf row.sizeText) (some sv) allDf =
        some Cat.Ds := by
      rw [afterRule5, if_neg (by simp [hscm, hsf]), if_neg (by simp [hcommon]),
        if_pos (by simp [hr8])]
    have hAG : afterGate (q * coerceUnitSafe row.unitWeight) (upperOf row.material)
        (upperOf row.partsName) (upperOf row.sizeText) row.serial allDf =
        .ok (some Cat.Ds) := by
      rw [afterGate.eq_def, if_neg (not_le.mpr hlt), if_neg (by simp [hcommon]), hserial]
      dsimp only
      rw [hscan5]
      dsimp only
      rw [har5]
    rw [classify_category, classifyCore, husage]
    simp only [hsum, Bool.false_eq_true, if_false, hgate, false_and, if_false]
    rw [hAG]
  · intro sizeUp sv allDf hok hlt
    have hscan : scanRule8 (allDf.filter (fun p => decide (p.serial = some sv))) =
        .ok false := by
      apply scanRule8_no_hit
      · intro r hr
        rw [List.mem_filter] at hr
        exact hok r hr.1 (by simpa using hr.2)
      · intro r hr
        rw [List.mem_filter] at hr
        exact hlt r hr.1 (by simpa using hr.2)
    cases hs : searchThickness sizeUp.data with
    | none => simp [rule8, hs]
    | some ds => simp [rule8, hs, hscan]

/-- Witness for C1 amended: a heavy non-common row of another item drives
the item-1 group to Ds through rule 5; a heavy common-steel row of
another item drives the markerless-size item-1 group to Ds through
rule 8; and two same-serial rows of mass 200 each, aggregating to 400,
leave rule 8 silent. -/
theorem claim1_witness :
    c1other.item = some 2
    ∧ c1g.item = some 1
    ∧ classify_category c1g c1T = some Cat.Ds
    ∧ c1r8sib.item = some 2
    ∧ classify_category c1r8row c1r8T = some Cat.Ds
    ∧ rule8 (upperStr ("100X50")) (some ("S")) c1r8T2 = false :=
  ⟨rfl, rfl,
   claim1_sibling_scan_amended.1 c1g c1T ("S") 1 rfl (by decide) (by decide)
     (by simp +decide [coerceUnitSafe, c1g]) (by decide) rfl (by decide)
     ⟨c1other, by decide, rfl, by decide,
      by simp +decide [rowMassQ, coerceQ0, c1other]⟩,
   rfl,
   claim1_sibling_scan_amended.2.1 c1r8row c1r8T ("T2") 1 ['1', '0', '0'] rfl
     (by decide) (by decide) (by simp +decide [coerceUnitSafe, c1r8row]) (by decide)
     rfl
     (by simp +decide [scanRule5, coerceUsage, coerceUnitUnsafe, upperOf, upperStr,
        c1r8row, c1r8sib, c1r8T, dummyRow])
     (by decide) (by decide) (by decide) (by decide) (by decide)
     ⟨c1r8sib, by decide, rfl, by simp +decide [rowMassQ, coerceQ0, c1r8sib]⟩,
   claim1_sibling_scan_amended.2.2 (upperStr ("100X50")) ("S") c1r8T2 (by decide)
     (by simp +decide [c1r8T2, c1sib, dummyRow, rowMassQ, coerceQ0])⟩

/-- Helper: first-occurrence deduplication only returns values of the
list. -/
theorem firstUniquesAux_subset {α : Type} [DecidableEq α] :
    ∀ (l seen : List α) (a : α), a ∈ firstUniquesAux seen l → a ∈ l := by
  intro l
  induction l with
  | nil =>
    intro seen a h
    simp [firstUniquesAux] at h
  | cons x xs ih =>
    intro seen a h
    rw [firstUniquesAux] at h
    by_cases hx : x ∈ seen
    · rw [if_pos hx] at h
      exact List.mem_cons_of_mem x (ih seen a h)
    · rw [if_neg hx] at h
      rcases List.mem_cons.mp h with h1 | h2
      · exact h1 ▸ List.mem_cons_self x xs
      · exact List.mem_cons_of_mem x (ih (x :: seen) a h2)

/-- Helper: membership transfer for firstUniques. -/
theorem firstUniques_subset {α : Type} [DecidableEq α] (l : List α) (a : α)
    (h : a ∈ firstUniques l) : a ∈ l :=
  firstUniquesAux_subset l [] a h

/-- Helper: a successful row-mass computation certifies both cells and
equals the degraded-to-0 reading. -/
theorem rowMassE_ok {r : Row} {m : ℚ} (h : rowMassE r = .ok m) :
    (r.usage ≠ NumCell.bad ∧ r.unitWeight ≠ NumCell.bad) ∧ m = rowMassQ r := by
  cases hu : r.usage <;> cases hw : r.unitWeight <;>
    simp only [rowMassE, hu, hw, coerceUsage, coerceUnitUnsafe] at h <;>
    first
    | (injection h with h2
       subst h2
       exact ⟨⟨by simp [hu], by simp [hw]⟩, by simp [rowMassQ, coerceQ0, hu, hw]⟩)
    | injection h

/-- Helper: a successful group-mass accumulation certifies every cell of
the group and equals the sum of the rows' masses. -/
theorem sumMassE_ok :
    ∀ {l : List Row} {w : ℚ}, sumMassE l = .ok w →
      (∀ r ∈ l, r.usage ≠ NumCell.bad ∧ r.unitWeight ≠ NumCell.bad)
      ∧ w = (l.map rowMassQ).sum := by
  intro l
  induction l with
  | nil =>
    intro w h
    simp [sumMassE] at h
    simp [← h]
  | cons r rs ih =>
    intro w h
    rw [sumMassE] at h
    cases hm : rowMassE r with
    | error e => rw [hm] at h; simp at h
    | ok m =>
      rw [hm] at h
      cases hs : sumMassE rs with
      | error e => rw [hs] at h; simp at h
      | ok s =>
        rw [hs] at h
        have hw : m + s = w := by simpa using h
        obtain ⟨h1, h2⟩ := ih hs
        refine ⟨?_, ?_⟩
        · intro r' hr'
          rcases List.mem_cons.mp hr' with h3 | h3
          · exact h3 ▸ (rowMassE_ok hm).1
          · exact h1 r' h3
        · rw [← hw, (rowMassE_ok hm).2, h2, List.map_cons, List.sum_cons]

/-- Helper: every group built by buildPartsList carries exactly the
serial rows of its PARTS key, a successfully accumulated mass, and the
first of its rows as representative. -/
theorem buildPartsList_mem :
    ∀ (srows : List Row) (ps : List String) (gs : List PartGroup),
      buildPartsList srows ps = .ok gs →
      ∀ pg ∈ gs, pg.partsNum ∈ ps
        ∧ pg.rows = srows.filter (fun r => decide (r.parts = some pg.partsNum))
        ∧ sumMassE pg.rows = .ok pg.weight
        ∧ pg.repRow = pg.rows.headD dummyRow := by
  intro srows ps
  induction ps with
  | nil =>
    intro gs h pg hpg
    simp only [buildPartsList] at h
    injection h with h2
    subst h2
    simp at hpg
  | cons p ptl ih =>
    intro gs h pg hpg
    simp only [buildPartsList] at h
    cases hw : sumMassE (srows.filter (fun r => decide (r.parts = some p))) with
    | error e => rw [hw] at h; simp at h
    | ok w =>
      rw [hw] at h
      cases hrest : buildPartsList srows ptl with
      | error e => rw [hrest] at h; simp at h
      | ok rest =>
        rw [hrest] at h
        injection h with h2
        subst h2
        rcases List.mem_cons.mp hpg with h1 | h2
        · subst h1
          exact ⟨List.mem_cons_self p ptl, rfl, hw, rfl⟩
        · obtain ⟨ha, hb, hc, hd⟩ := ih rest hrest pg h2
          exact ⟨List.mem_cons_of_mem p ha, hb, hc, hd⟩

/-- Helper: every group built by buildSerials comes from the parts-list
build of one of the visited serials. -/
theorem buildSerials_mem :
    ∀ (itemRows : List Row) (ss : List String) (gs : List PartGroup),
      buildSerials itemRows ss = .ok gs →
      ∀ pg ∈ gs, ∃ s ∈ ss, ∃ gs1,
        buildPartsList (itemRows.filter (fun r => decide (r.serial = some s)))
          (firstUniques
            ((itemRows.filter (fun r => decide (r.serial = some s))).filterMap
              (fun r => r.parts))) = .ok gs1
        ∧ pg ∈ gs1 := by
  intro itemRows ss
  induction ss with
  | nil =>
    intro gs h pg hpg
    simp only [buildSerials] at h
    injection h with h2
    subst h2
    simp at hpg
  | cons s stl ih =>
    intro gs h pg hpg
    simp only [buildSerials] at h
    cases hg1 : buildPartsList (itemRows.filter (fun r => decide (r.serial = some s)))
        (firstUniques
          ((itemRows.filter (fun r => decide (r.serial = some s))).filterMap
            (fun r => r.parts))) with
    | error e => rw [hg1] at h; simp at h
    | ok gs1 =>
      rw [hg1] at h
      cases hrest : buildSerials itemRows stl with
      | error e => rw [hrest] at h; simp at h
      | ok rest =>
        rw [hrest] at h
        injection h with h2
        subst h2
        rcases List.mem_append.mp hpg with h1 | h2
        · exact ⟨s, List.mem_cons_self s stl, gs1, hg1, h1⟩
        · obtain ⟨s', hs', gs', hg', hpg'⟩ := ih rest hrest pg h2
          exact ⟨s', List.mem_cons_of_mem s hs', gs', hg', hpg'⟩

/-- Helper: the full builder guarantee for one item: each group's rows
are the serial-and-parts filter of the item's rows, nonempty, with the
accumulated mass and the first row as representative. -/
theorem buildItemGroups_spec :
    ∀ (itemRows : List Row) (gs : List PartGroup),
      buildItemGroups itemRows = .ok gs →
      ∀ pg ∈ gs, ∃ s : String,
        pg.rows = (itemRows.filter (fun r => decide (r.serial = some s))).filter
          (fun r => decide (r.parts = some pg.partsNum))
        ∧ sumMassE pg.rows = .ok pg.weight
        ∧ pg.repRow = pg.rows.headD dummyRow
        ∧ pg.rows ≠ [] := by
  intro itemRows gs h pg hpg
  obtain ⟨s, _, gs1, hg1, hpg1⟩ := buildSerials_mem itemRows _ gs h pg hpg
  obtain ⟨hps, hrows, hsum, hrep⟩ := buildPartsList_mem _ _ gs1 hg1 pg hpg1
  refine ⟨s, hrows, hsum, hrep, ?_⟩
  have hmem := firstUniques_subset _ _ hps
  obtain ⟨r, hr, hrp⟩ := List.mem_filterMap.mp hmem
  have : r ∈ pg.rows := by
    rw [hrows]
    exact List.mem_filter.mpr ⟨hr, by simp [hrp]⟩
  exact List.ne_nil_of_mem this

/-- Helper: the representative row belongs to the group's rows. -/
theorem build_repRow_mem :
    ∀ (itemRows : List Row) (gs : List PartGroup),
      buildItemGroups itemRows = .ok gs →
      ∀ pg ∈ gs, pg.repRow ∈ pg.rows := by
  intro itemRows gs h pg hpg
  obtain ⟨s, _, _, hrep, hne⟩ := buildItemGroups_spec itemRows gs h pg hpg
  cases hrows : pg.rows with
  | nil => exact absurd hrows hne
  | cons a t =>
    rw [hrep, hrows]
    exact List.mem_cons_self a t

/-- Helper: every cell of a built group coerces, in particular the
modified representative row's usage cell. -/
theorem build_usage_ok :
    ∀ (itemRows : List Row) (gs : List PartGroup),
      buildItemGroups itemRows = .ok gs →
      ∀ pg ∈ gs, (repMod pg).usage ≠ NumCell.bad := by
  intro itemRows gs h pg hpg
  obtain ⟨s, _, hsum, _, _⟩ := buildItemGroups_spec itemRows gs h pg hpg
  have hcells := (sumMassE_ok hsum).1 pg.repRow (build_repRow_mem itemRows gs h pg hpg)
  rw [repMod]
  split
  · simp
  · exact hcells.1

/-- Helper: the usage cell of a built group's modified representative
coerces to some rational. -/
theorem build_usage_coerces :
    ∀ (itemRows : List Row) (gs : List PartGroup),
      buildItemGroups itemRows = .ok gs →
      ∀ pg ∈ gs, ∃ q : ℚ, coerceUsage (repMod pg).usage = .ok q := by
  intro itemRows gs h pg hpg
  have hu := build_usage_ok itemRows gs h pg hpg
  cases hc : (repMod pg).usage with
  | na => exact ⟨0, rfl⟩
  | num q => exact ⟨q, rfl⟩
  | bad => exact absurd hc hu

/-- C4: for every part-group built for an item, a summary text containing
one of the markers MS-, MS, JIS (checked after upper-casing, hence
case-insensitively) makes the classifier return excluded, regardless of
every other field; in particular the heavy-part rule never overrides
exclusion, since the summary check precedes it. -/
theorem claim4_exclusion_dominates :
    ∀ (allDf : List Row) (n : Int) (gs : List PartGroup) (pg : PartGroup),
      buildItemGroups (allDf.filter (fun r => decide (r.item = some n))) = .ok gs →
      pg ∈ gs →
      summaryMarker (upperOf pg.repRow.summary) = true →
      classifyGroup pg allDf = none := by
  intro allDf n gs pg hb hm hs
  obtain ⟨q, hq⟩ := build_usage_coerces _ gs hb pg hm
  have hs2 : summaryMarker (upperOf (repMod pg).summary) = true := by
    rw [(repMod_fields pg).1]
    exact hs
  have hcc : classifyCore (repMod pg) allDf = .ok none := by
    rw [classifyCore, hq]
    dsimp only
    rw [if_pos hs2]
  rw [classifyGroup, classify_category, hcc]

/-- Witness for C4: the JIS-marked group has mass 3500 yet is excluded. -/
theorem claim4_witness :
    w4pg.weight ≥ 3000
    ∧ summaryMarker (upperOf w4pg.repRow.summary) = true
    ∧ classifyGroup w4pg w4T = none :=
  ⟨by simp +decide [w4pg], by decide,
   claim4_exclusion_dominates w4T 1 [w4pg] w4pg rfl (by simp) (by decide)⟩

/-- C6: for every part-group built for an item whose supply code contains
one of ES, SU, ST, CS: without ROLL or ROLLER in the part name the
classifier returns excluded; with ROLL or ROLLER and also BRG or BEARING
it returns excluded; with ROLL or ROLLER and no bearing marker the result
is exactly what the classifier returns with the supply gate out of the
way, so evaluation continues with the weight and material rules. -/
theorem claim6_supply_gate :
    ∀ (allDf : List Row) (n : Int) (gs : List PartGroup) (pg : PartGroup),
      buildItemGroups (allDf.filter (fun r => decide (r.item = some n))) = .ok gs →
      pg ∈ gs →
      gateApplies (upperOf pg.repRow.supply) = true →
      (hasRollB (upperOf pg.repRow.partsName) = false →
        classifyGroup pg allDf = none)
      ∧ (hasRollB (upperOf pg.repRow.partsName) = true →
          hasBrgB (upperOf pg.repRow.partsName) = true →
          classifyGroup pg allDf = none)
      ∧ (hasRollB (upperOf pg.repRow.partsName) = true →
          hasBrgB (upperOf pg.repRow.partsName) = false →
          classifyGroup pg allDf =
            classify_category { repMod pg with supply := none } allDf) := by
  intro allDf n gs pg hb hm hg
  obtain ⟨q, hq⟩ := build_usage_coerces _ gs hb pg hm
  have hg2 : gateApplies (upperOf (repMod pg).supply) = true := by
    rw [(repMod_fields pg).2.1]
    exact hg
  refine ⟨?_, ?_, ?_⟩
  · intro hroll
    have hr2 : hasRollB (upperOf (repMod pg).partsName) = false := by
      rw [(repMod_fields pg).2.2.1]
      exact hroll
    have hcc : classifyCore (repMod pg) allDf = .ok none := by
      rw [classifyCore, hq]
      dsimp only
      by_cases hsm : summaryMarker (upperOf (repMod pg).summary) = true
      · rw [if_pos hsm]
      · rw [if_neg hsm, if_pos ⟨hg2, by simp [hr2]⟩]
    rw [classifyGroup, classify_category, hcc]
  · intro hroll hbrg
    have hr2 : hasRollB (upperOf (repMod pg).partsName) = true := by
      rw [(repMod_fields pg).2.2.1]
      exact hroll
    have hb2 : hasBrgB (upperOf (repMod pg).partsName) = true := by
      rw [(repMod_fields pg).2.2.1]
      exact hbrg
    have hcc : classifyCore (repMod pg) allDf = .ok none := by
      rw [classifyCore, hq]
      dsimp only
      by_cases hsm : summaryMarker (upperOf (repMod pg).summary) = true
      · rw [if_pos hsm]
      · rw [if_neg hsm, if_neg (by simp [hr2]), if_pos ⟨hg2, hr2, hb2⟩]
    rw [classifyGroup, classify_category, hcc]
  · intro hroll hbrg
    have hr2 : hasRollB (upperOf (repMod pg).partsName) = true := by
      rw [(repMod_fields pg).2.2.1]
      exact hroll
    have hb2 : hasBrgB (upperOf (repMod pg).partsName) = false := by
      rw [(repMod_fields pg).2.2.1]
      exact hbrg
    have hgf : gateApplies (upperOf (none : Option String)) = false := by decide
    have hcc : classifyCore (repMod pg) allDf =
        classifyCore { repMod pg with supply := none } allDf := by
      simp only [classifyCore]
      rw [hq]
      dsimp only
      by_cases hsm : summaryMarker (upperOf (repMod pg).summary) = true
      · rw [if_pos hsm, if_pos hsm]
      · have c1 : ¬ (gateApplies (upperOf (repMod pg).supply) = true ∧
            ¬ hasRollB (upperOf (repMod pg).partsName) = true) := by simp [hr2]
        have c2 : ¬ (gateApplies (upperOf (repMod pg).supply) = true ∧
            hasRollB (upperOf (repMod pg).partsName) = true ∧
            hasBrgB (upperOf (repMod pg).partsName) = true) := by simp [hb2]
        have c3 : ¬ (gateApplies (upperOf (none : Option String)) = true ∧
            ¬ hasRollB (upperOf (repMod pg).partsName) = true) := by simp [hgf]
        have c4 : ¬ (gateApplies (upperOf (none : Option String)) = true ∧
            hasRollB (upperOf (repMod pg).partsName) = true ∧
            hasBrgB (upperOf (repMod pg).partsName) = true) := by simp [hgf]
        rw [if_neg hsm, if_neg hsm, if_neg c1, if_neg c3, if_neg c2, if_neg c4]
    rw [classifyGroup]
    simp only [classify_category]
    rw [hcc]

/-- Witness for C6: the gated non-roller group is excluded, while the
gated roller group classifies exactly as it would with no supply code,
here ending unclassified. -/
theorem claim6_witness :
    classifyGroup w6Apg w6AT = none
    ∧ classifyGroup w6Bpg w6BT =
        classify_category { repMod w6Bpg with supply := none } w6BT
    ∧ classifyGroup w6Bpg w6BT = some Cat.unclassified :=
  ⟨(claim6_supply_gate w6AT 1 [w6Apg] w6Apg rfl (by simp) (by decide)).1 (by decide),
   (claim6_supply_gate w6BT 1 [w6Bpg] w6Bpg rfl (by simp) (by decide)).2.2
     (by decide) (by decide),
   by
    simp +decide [classifyGroup, classify_category, classifyCore, afterGate,
      afterRule5, rule8, scanRule5, searchThickness, repMod, upperOf, coerceUsage,
      coerceUnitSafe, coerceUnitUnsafe, w6Bpg, w6Brow, w6BT, dummyRow]⟩

/-- C8: every built part-group's total mass is the sum of usage times
unit weight over exactly the rows of the input sharing its item, serial
and parts key, and any permutation of those rows yields the same sum. -/
theorem claim8_group_mass :
    ∀ (allDf : List Row) (n : Int) (gs : List PartGroup),
      buildItemGroups (allDf.filter (fun r => decide (r.item = some n))) = .ok gs →
      ∀ pg ∈ gs, ∃ s : String,
        pg.rows = allDf.filter (fun r =>
          decide (r.item = some n) && decide (r.serial = some s) &&
            decide (r.parts = some pg.partsNum))
        ∧ pg.weight = (pg.rows.map rowMassQ).sum
        ∧ ∀ l : List Row, l.Perm pg.rows → (l.map rowMassQ).sum = pg.weight := by
  intro allDf n gs hb pg hpg
  obtain ⟨s, hrows, hsum, _, _⟩ := buildItemGroups_spec _ gs hb pg hpg
  have hw := (sumMassE_ok hsum).2
  refine ⟨s, ?_, hw, ?_⟩
  · rw [hrows, List.filter_filter, List.filter_filter]
    apply List.filter_congr
    intro r _
    cases decide (r.item = some n) <;> cases decide (r.serial = some s) <;>
      cases decide (r.parts = some pg.partsNum) <;> rfl
  · intro l hl
    rw [hw]
    exact (hl.map rowMassQ).sum_eq

/-- Witness for C8: the two-row group's mass is the sum over its rows and
is unchanged by swapping the rows. -/
theorem claim8_witness :
    buildItemGroups (w8T.filter (fun r => decide (r.item = some 1))) = .ok [w8pg]
    ∧ w8pg.weight = (w8pg.rows.map rowMassQ).sum
    ∧ (([w8b, w8a]).map rowMassQ).sum = w8pg.weight := by
  obtain ⟨s, h1, h2, h3⟩ := claim8_group_mass w8T 1 [w8pg] rfl w8pg (by simp)
  exact ⟨rfl, h2, h3 [w8b, w8a] (List.Perm.swap w8a w8b [])⟩

/-- Helper: the classified list has one entry per non-excluded group. -/
theorem classifyAll_length (allDf : List Row) :
    ∀ gs : List PartGroup,
      (classifyAll allDf gs).length =
        (gs.filter (fun pg => (classifyGroup pg allDf).isSome)).length := by
  intro gs
  induction gs with
  | nil => rfl
  | cons pg t ih =>
    cases hc : classifyGroup pg allDf with
    | none =>
      have e1 : classifyAll allDf (pg :: t) = classifyAll allDf t := by
        simp [classifyAll, List.filterMap_cons, hc]
      have e2 : (pg :: t).filter (fun pg => (classifyGroup pg allDf).isSome) =
          t.filter (fun pg => (classifyGroup pg allDf).isSome) := by
        simp [List.filter_cons, hc]
      rw [e1, e2, ih]
    | some c =>
      have e1 : classifyAll allDf (pg :: t) = (c, pg) :: classifyAll allDf t := by
        simp [classifyAll, List.filterMap_cons, hc]
      have e2 : (pg :: t).filter (fun pg => (classifyGroup pg allDf).isSome) =
          pg :: t.filter (fun pg => (classifyGroup pg allDf).isSome) := by
        simp [List.filter_cons, hc]
      rw [e1, e2, List.length_cons, List.length_cons, ih]

/-- Helper: the classified list carries the same total mass as the
non-excluded groups. -/
theorem classifyAll_weight (allDf : List Row) :
    ∀ gs : List PartGroup,
      ((classifyAll allDf gs).map (fun x => x.2.weight)).sum =
        ((gs.filter (fun pg => (classifyGroup pg allDf).isSome)).map
          (fun pg => pg.weight)).sum := by
  intro gs
  induction gs with
  | nil => rfl
  | cons pg t ih =>
    cases hc : classifyGroup pg allDf with
    | none =>
      have e1 : classifyAll allDf (pg :: t) = classifyAll allDf t := by
        simp [classifyAll, List.filterMap_cons, hc]
      have e2 : (pg :: t).filter (fun pg => (classifyGroup pg allDf).isSome) =
          t.filter (fun pg => (classifyGroup pg allDf).isSome) := by
        simp [List.filter_cons, hc]
      rw [e1, e2, ih]
    | some c =>
      have e1 : classifyAll allDf (pg :: t) = (c, pg) :: classifyAll allDf t := by
        simp [classifyAll, List.filterMap_cons, hc]
      have e2 : (pg :: t).filter (fun pg => (classifyGroup pg allDf).isSome) =
          pg :: t.filter (fun pg => (classifyGroup pg allDf).isSome) := by
        simp [List.filter_cons, hc]
      rw [e1, e2, List.map_cons, List.map_cons, List.sum_cons, List.sum_cons, ih]

/-- Helper: the six per-category counts partition the classified list. -/
theorem catCount_split :
    ∀ l : List (Cat × PartGroup),
      catCount Cat.d l + catCount Cat.Ds l + catCount Cat.Dm l +
        catCount Cat.De l + catCount Cat.PD l + catCount Cat.unclassified l =
      l.length := by
  intro l
  induction l with
  | nil => rfl
  | cons x t ih =>
    cases hc : x.1 <;>
      simp only [catCount, List.filter_cons, hc] <;>
      simp only [catCount] at ih <;>
      simp <;> omega

/-- Helper: the six per-category masses partition the classified list's
total mass. -/
theorem catWeight_split :
    ∀ l : List (Cat × PartGroup),
      catWeight Cat.d l + catWeight Cat.Ds l + catWeight Cat.Dm l +
        catWeight Cat.De l + catWeight Cat.PD l + catWeight Cat.unclassified l =
      (l.map (fun x => x.2.weight)).sum := by
  intro l
  induction l with
  | nil => simp [catWeight]
  | cons x t ih =>
    cases hc : x.1 <;>
      simp only [catWeight, List.filter_cons, hc] <;>
      simp only [catWeight] at ih <;>
      simp <;> linarith

/-- Helper: the unclassified sublist's length is the unclassified count. -/
theorem unclOf_length (cl : List (Cat × PartGroup)) :
    (unclOf cl).length = catCount Cat.unclassified cl := by
  simp [unclOf, catCount]

/-- Helper: the unclassified sublist's mass is the unclassified mass. -/
theorem unclOf_weight (cl : List (Cat × PartGroup)) :
    ((unclOf cl).map (fun pg => pg.weight)).sum = catWeight Cat.unclassified cl := by
  rw [unclOf, catWeight, List.map_map]
  rfl

/-- Helper: allocation preserves the number of unclassified groups. -/
theorem allocate_count (u : List PartGroup) :
    (allocate u).1.length + (allocate u).2.length = u.length := by
  rw [allocate_len1, allocate_len2]
  omega

/-- Helper: allocation preserves the total unclassified mass. -/
theorem allocate_weight_sum (u : List PartGroup) :
    ((allocate u).1.map (fun pg => pg.weight)).sum +
      ((allocate u).2.map (fun pg => pg.weight)).sum =
    (u.map (fun pg => pg.weight)).sum := by
  rw [← List.sum_append, ← List.map_append, allocate_append]
  exact ((sortDesc_perm u).map _).sum_eq

/-- C2: for every produced item record, the five category counts sum to
the number of non-excluded part-groups of the item, and the five category
masses sum exactly to those groups' total masses, so the 0.01 tolerance
of the claim is met with room to spare. -/
theorem claim2_item_conservation :
    ∀ (allDf : List Row) (n : Int) (d : ItemData) (gs : List PartGroup),
      processItem allDf n = .ok d →
      buildItemGroups (allDf.filter (fun r => decide (r.item = some n))) = .ok gs →
      (d.dCount + d.dsCount + d.dmCount + d.deCount + d.pdCount =
        (gs.filter (fun pg => (classifyGroup pg allDf).isSome)).length)
      ∧ (d.dWeight + d.dsWeight + d.dmWeight + d.deWeight + d.pdWeight =
        ((gs.filter (fun pg => (classifyGroup pg allDf).isSome)).map
          (fun pg => pg.weight)).sum) := by
  intro allDf n d gs h1 h2
  simp only [processItem] at h1
  rw [h2] at h1
  injection h1 with h3
  subst h3
  simp only [mkItemData]
  constructor
  · have hsplit := catCount_split (classifyAll allDf gs)
    have hlen := classifyAll_length allDf gs
    have halloc := allocate_count (unclOf (classifyAll allDf gs))
    have huncl := unclOf_length (classifyAll allDf gs)
    omega
  · have hsplit := catWeight_split (classifyAll allDf gs)
    have hws := classifyAll_weight allDf gs
    have halloc := allocate_weight_sum (unclOf (classifyAll allDf gs))
    have huncl := unclOf_weight (classifyAll allDf gs)
    linarith

/-- Witness for C2 on the two-group item: counts and masses balance. -/
theorem claim2_witness :
    processItem w2T 1 = .ok w2d
    ∧ w2d.dCount + w2d.dsCount + w2d.dmCount + w2d.deCount + w2d.pdCount =
        (w2gs.filter (fun pg => (classifyGroup pg w2T).isSome)).length
    ∧ w2d.dWeight + w2d.dsWeight + w2d.dmWeight + w2d.deWeight + w2d.pdWeight =
        ((w2gs.filter (fun pg => (classifyGroup pg w2T).isSome)).map
          (fun pg => pg.weight)).sum :=
  ⟨rfl, (claim2_item_conservation w2T 1 w2d w2gs rfl rfl).1,
   (claim2_item_conservation w2T 1 w2d w2gs rfl rfl).2⟩
